import Mathlib

/-!
Shallow embedding of the credential-rotating connection pool and the bulk
write engine of the repository (files `writers/oracle_writer.py`,
`writers/postgres_writer.py`, `DBConnections/postgre_auth_pool.py`),
together with proofs of the specification's testable properties.

Conventions of the embedding:
* Python values that can flow through keyword arguments and DataFrame
  cells are modelled by `PyVal` (strings, ints, lists of strings, `None`).
* A pandas `DataFrame` is modelled by its column-name list and its rows,
  each row a list of cells aligned with the column list.
* Real time is a parameter `now : Int` passed to each call that reads the
  clock; database timestamps are `Int`.
* Fallible Python code (raise / assert) is modelled with `Except`.
-/

/-- Python-ish runtime values: strings, integers, lists of strings, `None`. -/
inductive PyVal where
  | str (s : String)
  | int (n : Int)
  | strList (l : List String)
  | null
deriving DecidableEq, Repr

instance : Inhabited PyVal := ⟨PyVal.null⟩

/-- Python truthiness of an optional value (`None`, `""`, `[]`, `0` are falsy;
an absent value — `Option.none` — is falsy as well). -/
def pyTruthy : Option PyVal → Bool
  | Option.none => false
  | some PyVal.null => false
  | some (PyVal.str s) => s ≠ ""
  | some (PyVal.int n) => n ≠ 0
  | some (PyVal.strList l) => l ≠ []

/-! ## Oracle writer: SQL builders and row reordering
    (`oracle_writer.py`, `_build_insert_sql`, `_build_update_sql`,
    `_reorder_tuple_for_update`) -/

/-- `_build_insert_sql`: `INSERT INTO table (col1, col2, ...) VALUES (:1, :2, ...)`. -/
def build_insert_sql (table : String) (columns : List String) : String :=
  let col_str := String.intercalate ", " columns
  let placeholders := String.intercalate ", " ((List.range columns.length).map (fun i => s!":{i+1}"))
  s!"INSERT INTO {table} ({col_str}) VALUES ({placeholders})"

/-- The SET-clause columns of `_build_update_sql`: all batch columns that are
not primary-key columns, in their original order
(`set_cols = [c for c in columns if c not in pk_cols]`). -/
def update_set_cols (columns pk_cols : List String) : List String :=
  columns.filter (fun c => !pk_cols.contains c)

/-- `_build_update_sql`: placeholders `:1..:k` for the SET columns in original
order, then `:(k+1)..` for the key columns in the order `pk_cols` is given. -/
def build_update_sql (table : String) (columns pk_cols : List String) : String :=
  let set_cols := update_set_cols columns pk_cols
  let set_clause := String.intercalate ", "
    (set_cols.enum.map (fun p => s!"{p.2} = :{p.1+1}"))
  let where_parts := pk_cols.enum.map
    (fun p => s!"{p.2} = :{set_cols.length + p.1 + 1}")
  let where_clause := String.intercalate " AND " where_parts
  s!"UPDATE {table} SET {set_clause} WHERE {where_clause}"

/-- `set_col_indexes` of `_reorder_tuple_for_update`: positions of the non-key
columns in `all_cols`, in order. -/
def set_col_indexes (all_cols pk_cols : List String) : List Nat :=
  (all_cols.enum.filter (fun p => !pk_cols.contains p.2)).map (fun p => p.1)

/-- `pk_col_indexes` of `_reorder_tuple_for_update`: for each key column, its
(first) position in `all_cols` (Python `all_cols.index(pk)`). -/
def pk_col_indexes (all_cols pk_cols : List String) : List Nat :=
  pk_cols.map (fun pk => all_cols.indexOf pk)

/-- `_reorder_tuple_for_update`: every row becomes
(values of the non-key columns in original order) ++
(values of the key columns in `pk_cols` order). -/
def reorder_tuple_for_update [Inhabited α] (data_tuples : List (List α))
    (all_cols pk_cols : List String) : List (List α) :=
  data_tuples.map (fun row =>
    (set_col_indexes all_cols pk_cols).map (fun i => row.getD i default) ++
    (pk_col_indexes all_cols pk_cols).map (fun i => row.getD i default))

/-! ## Oracle writer: chunked execution loop
    (`insert_data` / `update_data`, the `while start_idx < total_rows` loop;
    the loop diverges in Python for `chunk_size = 0`, so the embedding is
    stated and used for positive chunk sizes only) -/

/-- The chunking `while` loop of `insert_data`/`update_data`: starting at
`start`, take `chunk_size`-row slices `df.iloc[start : start+chunk_size]`
until the batch is exhausted. -/
def insertLoop (rows : List α) (chunk_size start : Nat) : List (List α) :=
  if _h : 0 < chunk_size ∧ start < rows.length then
    ((rows.drop start).take chunk_size) :: insertLoop rows chunk_size (start + chunk_size)
  else []
termination_by rows.length - start
decreasing_by omega

/-- The chunks issued for a whole batch (`start_idx = 0`). -/
def insert_chunks (rows : List α) (chunk_size : Nat) : List (List α) :=
  insertLoop rows chunk_size 0

/-- Observable statement-level events of one chunked write call. -/
inductive ChunkEvent (α : Type u) where
  | exec (chunk : List α)
  | commit
  | rollback
deriving DecidableEq

/-- Execution of the chunk loop with a failure oracle `fails` on chunk
indices: each chunk is executed (`cur.executemany`) and committed; when
`executemany` on chunk `k` raises, the surrounding `except` block rolls the
current transaction back and re-raises (`Bool` result: `true` = no error),
so no later chunk is ever issued. -/
def insertRun (rows : List α) (chunk_size : Nat) (fails : Nat → Bool)
    (start k : Nat) : List (ChunkEvent α) × Bool :=
  if _h : 0 < chunk_size ∧ start < rows.length then
    let c := (rows.drop start).take chunk_size
    if fails k then ([ChunkEvent.exec c, ChunkEvent.rollback], false)
    else
      let r := insertRun rows chunk_size fails (start + chunk_size) (k + 1)
      (ChunkEvent.exec c :: ChunkEvent.commit :: r.1, r.2)
  else ([], true)
termination_by rows.length - start
decreasing_by omega

/-! ## Sequence allocator (`_allocate_custom_sequence_block`) -/

/-- One row of the `SEQUENCES` counter table:
`LAST_THRESHOLD` (nullable) and `LAST_CHANGED_AT`. -/
structure SeqRow where
  last_threshold : Option Int
  last_changed_at : Int
deriving DecidableEq, Repr

/-- The `SEQUENCES` table: `ENTITYNAME` is the unique key. -/
structure SeqTable where
  rows : List (String × SeqRow)
deriving DecidableEq, Repr

/-- `SELECT LAST_THRESHOLD FROM SEQUENCES WHERE ENTITYNAME = :ent`. -/
def seqLookup (t : SeqTable) (ent : String) : Option SeqRow :=
  (t.rows.find? (fun p => p.1 == ent)).map (fun p => p.2)

/-- `UPDATE SEQUENCES SET LAST_THRESHOLD = :new_thr, LAST_CHANGED_AT = SYSDATE
WHERE ENTITYNAME = :ent`. -/
def seqUpdate (t : SeqTable) (ent : String) (new_thr : Int) (now : Int) : SeqTable :=
  ⟨t.rows.map (fun p => if p.1 == ent then (p.1, ⟨some new_thr, now⟩) else p)⟩

/-- Python `list(range(a, b))`. -/
def intRange (a b : Int) : List Int :=
  (List.range (b - a).toNat).map (fun (i : Nat) => a + (i : Int))

/-- Outcome of a successful `_allocate_custom_sequence_block` call:
the allocated ids, the table after the committed update, and the SQL
statements that were issued on the cursor. -/
structure AllocResult where
  ids : List Int
  table : SeqTable
  sql_issued : List String
  committed : Bool
deriving DecidableEq, Repr

/-- `_allocate_custom_sequence_block`: lock-read the counter row for
`entity_name` (raise if absent), read a null threshold as 0, set the stored
threshold to `old + block_size` with a fresh `LAST_CHANGED_AT`, commit, and
return `list(range(old+1, old+block_size+1))`. -/
def allocate_custom_sequence_block (t : SeqTable) (now : Int)
    (entity_name : String) (block_size : Nat) : Except String AllocResult :=
  let select_sql := "SELECT LAST_THRESHOLD FROM SEQUENCES WHERE ENTITYNAME = :ent FOR UPDATE"
  match seqLookup t entity_name with
  | Option.none =>
      Except.error s!"No entry found in SEQUENCES table for ENTITYNAME={entity_name}"
  | some row =>
      let old_threshold := row.last_threshold.getD 0
      let new_start := old_threshold + 1
      let new_end := old_threshold + block_size
      let update_sql := "UPDATE SEQUENCES SET LAST_THRESHOLD = :new_thr, LAST_CHANGED_AT = SYSDATE WHERE ENTITYNAME = :ent"
      Except.ok { ids := intRange new_start (new_end + 1),
                  table := seqUpdate t entity_name new_end now,
                  sql_issued := [select_sql, update_sql],
                  committed := true }

/-! ## DataFrame model and primary-key filling
    (`insert_data` lines 129-143, `_fill_df_pk_with_sequence`) -/

/-- A pandas DataFrame as used by the writers: a column-name list and rows of
cells aligned with it. -/
structure DF where
  cols : List String
  rows : List (List PyVal)
deriving DecidableEq, Repr

/-- `df[c] = vals` for a list `vals` with one value per row: overwrite the
column positionally if it exists, otherwise append it as the last column. -/
def df_set_column (df : DF) (c : String) (vals : List PyVal) : DF :=
  match df.cols.indexOf? c with
  | some i => { df with rows := (df.rows.zip vals).map (fun p => p.1.set i p.2) }
  | Option.none => { cols := df.cols ++ [c],
                     rows := (df.rows.zip vals).map (fun p => p.1 ++ [p.2]) }

/-- Read a column of the DataFrame as a list of cells (row order). -/
def df_get_column (df : DF) (c : String) : List PyVal :=
  match df.cols.indexOf? c with
  | some i => df.rows.map (fun r => r.getD i default)
  | Option.none => []

/-- `_fill_df_pk_with_sequence`: allocate `len(df)` ids for `sequence_name`
and assign them positionally into `df[pk_col]`; a 0-row DataFrame returns at
once, issuing no SQL. -/
def fill_df_pk_with_sequence (df : DF) (pk_col : String) (t : SeqTable)
    (now : Int) (sequence_name : String) : Except String (DF × SeqTable) :=
  let count_needed := df.rows.length
  if count_needed = 0 then Except.ok (df, t)
  else
    match allocate_custom_sequence_block t now sequence_name count_needed with
    | Except.error e => Except.error e
    | Except.ok r =>
        Except.ok (df_set_column df pk_col (r.ids.map PyVal.int), r.table)

/-- Python truthiness of an optional string argument (`None` and `""` falsy). -/
def optStr (o : Option String) : Option String :=
  o.bind (fun s => if s = "" then Option.none else some s)

/-- The data-preparation prefix of `insert_data` (lines 129-143): empty
DataFrames return unchanged; `sequence_name` without `pk_col` raises
`ValueError`; with both, a missing `pk_col` column is first added (as the last
column, filled with `None`) and then overwritten with the allocated sequence
ids. The result is the DataFrame as the caller observes it afterwards
(the mutation is in place in the source). -/
def insert_data_prepare (df : DF) (pk_col sequence_name : Option String)
    (t : SeqTable) (now : Int) : Except String (DF × SeqTable) :=
  if df.rows.length = 0 then Except.ok (df, t)
  else
    match optStr sequence_name, optStr pk_col with
    | some _, Option.none =>
        Except.error "A sequence_name was provided but no pk_col. pk_col is mandatory if sequence_name is used."
    | some sq, some pk =>
        let df1 := if df.cols.contains pk then df
                   else df_set_column df pk (List.replicate df.rows.length PyVal.null)
        fill_df_pk_with_sequence df1 pk t now sq
    | Option.none, _ => Except.ok (df, t)

/-- `update_data` as observed by the caller: validation (empty batch is a
no-op; empty `pk_cols` and key columns missing from the DataFrame raise
`ValueError`), then the built UPDATE statement and the reordered bind tuples
of all rows; the input DataFrame is only read, never written, so it is
returned unchanged (the chunked execution itself is `insertRun`). -/
def update_data (table : String) (df : DF) (pk_cols : List String) :
    Except String (DF × String × List (List PyVal)) :=
  if df.rows.length = 0 then Except.ok (df, "", [])
  else if pk_cols = [] then Except.error "pk_cols cannot be empty for update_data()."
  else if pk_cols.filter (fun c => !df.cols.contains c) ≠ [] then
    Except.error "The DataFrame is missing required PK columns for update"
  else
    Except.ok (df, build_update_sql table df.cols pk_cols,
               reorder_tuple_for_update df.rows df.cols pk_cols)

/-! ## `write_as_dataframe` dispatch (`oracle_writer.py` lines 74-111)

The dispatcher is modelled down to Python's keyword-argument binding,
because the handlers forward the whole `kwargs` dict into `insert_data` /
`update_data`, whose signatures are `(df, pk_col=None, sequence_name=None,
chunk_size=50000)` and `(df, pk_cols, chunk_size=50000)` with no `**kwargs`:
an unexpected or duplicated keyword raises `TypeError` at call time, before
the callee body runs. Only `AssertionError` is converted to `ValueError` by
the `try` block; `TypeError` propagates. -/

/-- The Python exceptions this call path can surface. -/
inductive PyError where
  | assertionError (msg : String)
  | valueError (msg : String)
  | typeError (msg : String)
deriving DecidableEq, Repr

/-- A successful dispatch outcome: which operation would run, with the
options actually bound for it. -/
inductive Dispatch where
  | insertCall (pk_col sequence_name chunk_size : Option PyVal)
  | updateCall (pk_cols : PyVal) (chunk_size : Option PyVal)
deriving DecidableEq, Repr

/-- `kwargs.get(k)` on the keyword dictionary. -/
def kwGet (kwargs : List (String × PyVal)) (k : String) : Option PyVal :=
  (kwargs.find? (fun p => p.1 == k)).map (fun p => p.2)

/-- Keyword parameters accepted by `insert_data` besides `df`. -/
def insert_data_keywords : List String := ["pk_col", "sequence_name", "chunk_size"]

/-- Keyword parameters accepted by `update_data` besides `df`. -/
def update_data_keywords : List String := ["pk_cols", "chunk_size"]

/-- Python call `self.insert_data(df, **kwargs)`: binding fails with
`TypeError` if any keyword is not a parameter of `insert_data`. -/
def call_insert_data (kwargs : List (String × PyVal)) : Except PyError Dispatch :=
  if kwargs.filter (fun p => !insert_data_keywords.contains p.1) ≠ [] then
    Except.error (PyError.typeError "insert_data() got an unexpected keyword argument")
  else
    Except.ok (Dispatch.insertCall (kwGet kwargs "pk_col")
      (kwGet kwargs "sequence_name") (kwGet kwargs "chunk_size"))

/-- Python call `self.update_data(df, pk_cols=pk_cols, **kwargs)`: binding
fails with `TypeError` if `kwargs` itself still holds `pk_cols` (duplicate)
or any keyword that is not a parameter of `update_data`. -/
def call_update_data (pk_cols : PyVal) (kwargs : List (String × PyVal)) :
    Except PyError Dispatch :=
  if (kwGet kwargs "pk_cols").isSome then
    Except.error (PyError.typeError "update_data() got multiple values for keyword argument pk_cols")
  else if kwargs.filter (fun p => !update_data_keywords.contains p.1) ≠ [] then
    Except.error (PyError.typeError "update_data() got an unexpected keyword argument")
  else
    Except.ok (Dispatch.updateCall pk_cols (kwGet kwargs "chunk_size"))

/-- `write_as_dataframe`: assert a truthy `mode` and a known handler
(`AssertionError` if not); inside the `try` block, the update handler's
assertion on `pk_cols` raises `AssertionError`, re-raised as `ValueError`;
then the chosen handler lambda calls the target method, where keyword
binding of the forwarded `kwargs` takes place. -/
def write_as_dataframe (kwargs : List (String × PyVal)) : Except PyError Dispatch :=
  let mode := kwGet kwargs "mode"
  if ¬ pyTruthy mode then
    Except.error (PyError.assertionError "You must pass mode keyword argument. Allowed values: insert or update")
  else
    match mode with
    | some (PyVal.str "update") =>
        if ¬ pyTruthy (kwGet kwargs "pk_cols") then
          Except.error (PyError.valueError "update mode requires pk_cols in kwargs!")
        else call_update_data ((kwGet kwargs "pk_cols").getD PyVal.null) kwargs
    | some (PyVal.str "insert") => call_insert_data kwargs
    | _ => Except.error (PyError.assertionError "Invalid mode. Allowed values are insert or update.")

/-! ## Postgres writer (`postgres_writer.py`, `write_as_dataframe` and
    `_merge_batch`) -/

/-- `merge_on` may be a single column name or a list of names;
`_merge_batch` wraps a bare string into a one-element list. -/
def normalize_merge_on : String ⊕ List String → List String
  | Sum.inl s => [s]
  | Sum.inr l => l

/-- The clause structure of one generated MERGE statement: the ON columns,
the columns updated under WHEN MATCHED (all non-key columns), the columns
inserted under WHEN NOT MATCHED (the full row), and how many rows it binds. -/
structure MergeStmt where
  on_cols : List String
  matched_set_cols : List String
  insert_cols : List String
  num_rows : Nat
deriving DecidableEq, Repr

/-- `_merge_batch`'s statement construction for a chunk of `n` rows. -/
def merge_batch_stmt (df_cols merge_on : List String) (n : Nat) : MergeStmt :=
  { on_cols := merge_on,
    matched_set_cols := df_cols.filter (fun c => !merge_on.contains c),
    insert_cols := df_cols,
    num_rows := n }

/-- Observable events of one Postgres write call: a MERGE statement executed
for a chunk, a transaction commit, a rollback. -/
inductive PgEvent where
  | merge (stmt : MergeStmt) (chunk : List (List PyVal))
  | commit
  | rollback
deriving DecidableEq, Repr

/-- The chunking loop of the Postgres `write_as_dataframe`
(`end = min(start + chunk_size, total)`, one `_merge_batch` per subset). -/
def pg_write_loop (cols merge_on : List String) (rows : List (List PyVal))
    (chunk_size start : Nat) : List PgEvent :=
  if _h : 0 < chunk_size ∧ start < rows.length then
    let e := min (start + chunk_size) rows.length
    PgEvent.merge (merge_batch_stmt cols merge_on (e - start))
        ((rows.drop start).take (e - start)) ::
      pg_write_loop cols merge_on rows chunk_size e
  else []
termination_by rows.length - start
decreasing_by omega

/-- Postgres `write_as_dataframe` (success path): empty DataFrames produce no
events; a truthy positive `chunk_size` selects the chunked loop, anything
else a single whole-batch MERGE; one single `conn.commit()` follows after
the loop has processed every chunk. -/
def pg_write_as_dataframe (cols : List String) (rows : List (List PyVal))
    (merge_on : String ⊕ List String) (chunk_size : Option Int) : List PgEvent :=
  if rows.length = 0 then []
  else
    let mo := normalize_merge_on merge_on
    let evs :=
      match chunk_size with
      | some cs =>
          if 0 < cs then pg_write_loop cols mo rows cs.toNat 0
          else [PgEvent.merge (merge_batch_stmt cols mo rows.length) rows]
      | Option.none => [PgEvent.merge (merge_batch_stmt cols mo rows.length) rows]
    evs ++ [PgEvent.commit]

/-! ## Credential-rotating pool (`postgre_auth_pool.py`) -/

/-- The pool's bookkeeping state: `_connection_created_at` keyed by physical
connection identity, a supply of fresh connection identities, the set of
physically closed connections, and how many IAM tokens were minted. -/
structure PoolState where
  created_at : List (Nat × Int)
  next_conn : Nat
  closed : List Nat
  minted : Nat
deriving DecidableEq, Repr

/-- `_connect`: mint a fresh token, open a brand-new physical connection and
record its creation timestamp. -/
def pool_connect (s : PoolState) (now : Int) : Nat × PoolState :=
  let conn := s.next_conn
  (conn, { created_at := (conn, now) :: s.created_at,
           next_conn := s.next_conn + 1,
           closed := s.closed,
           minted := s.minted + 1 })

/-- `self._connection_created_at.get(conn, default)` without the default. -/
def lookup_created_at (m : List (Nat × Int)) (c : Nat) : Option Int :=
  (m.find? (fun p => p.1 == c)).map (fun p => p.2)

/-- `getconn`: take `conn` from the underlying pool, read its recorded
creation time (defaulting to `now` when unrecorded); if its age exceeds the
token TTL, close it best-effort, drop its bookkeeping entry and hand out a
brand-new connection from `_connect`; otherwise return it unchanged. -/
def pool_getconn (token_ttl : Int) (s : PoolState) (conn : Nat) (now : Int) :
    Nat × PoolState :=
  let created_at := (lookup_created_at s.created_at conn).getD now
  if now - created_at > token_ttl then
    let s1 := { s with closed := conn :: s.closed,
                       created_at := s.created_at.filter (fun p => p.1 != conn) }
    pool_connect s1 now
  else (conn, s)

/-! ## Lemmas -/

lemma map_enumFrom_filter {β : Type u} (pk : List String) (g : Nat → β) :
    ∀ (l : List String) (n : Nat), l.Nodup →
      ((List.enumFrom n l).filter (fun p => !pk.contains p.2)).map (fun p => g p.1) =
      (l.filter (fun c => !pk.contains c)).map (fun c => g (n + l.indexOf c)) := by
  intro l
  induction l with
  | nil => simp
  | cons c cs ih =>
    intro n hnd
    rw [List.enumFrom_cons, List.filter_cons, List.filter_cons]
    by_cases hc : pk.contains c
    · simp only [hc, Bool.not_true, Bool.false_eq_true, if_false]
      rw [ih (n + 1) (List.Nodup.of_cons hnd)]
      apply List.map_congr_left
      intro a ha
      have hane : a ≠ c := by
        intro hac
        have h2 := (List.mem_filter.mp ha).2
        rw [hac, hc] at h2
        simp at h2
      have hba : (c == a) = false := by
        simp only [beq_eq_false_iff_ne, ne_eq]
        exact fun h => hane h.symm
      rw [List.indexOf_cons, hba, cond_false]
      have h3 : n + (List.indexOf a cs + 1) = n + 1 + List.indexOf a cs := by omega
      rw [h3]
    · have hc' : pk.contains c = false := by simpa using hc
      simp only [hc', Bool.not_false, if_true, List.map_cons, List.indexOf_cons_self]
      rw [ih (n + 1) (List.Nodup.of_cons hnd)]
      have hcc : c ∉ cs := (List.nodup_cons.mp hnd).1
      congr 1
      apply List.map_congr_left
      intro a ha
      have hane : a ≠ c := fun hac => hcc (hac ▸ (List.mem_filter.mp ha).1)
      have hba : (c == a) = false := by
        simp only [beq_eq_false_iff_ne, ne_eq]
        exact fun h => hane h.symm
      rw [List.indexOf_cons, hba, cond_false]
      have h3 : n + (List.indexOf a cs + 1) = n + 1 + List.indexOf a cs := by omega
      rw [h3]

/-! ## Claim theorems -/

/-- **C1**: for every update batch, the generated UPDATE statement binds
placeholders first for all non-key columns in original batch column order and
then for the key columns in the order `pk_cols` is given
(`build_update_sql` numbers `:1..:k` over `update_set_cols` and `:(k+1)..`
over `pk_cols`), and `_reorder_tuple_for_update` reorders every row's values
to exactly that same column order; in particular, with
`pk_cols = [PK1, PK2]` and batch columns `[PK1, A, B, PK2]` the statement
binds `(A, B, PK1, PK2)`, and every row is reordered accordingly. -/
theorem update_binding_order_matches (all_cols pk_cols : List String)
    (rows : List (List PyVal)) (hnd : all_cols.Nodup) :
    reorder_tuple_for_update rows all_cols pk_cols =
      rows.map (fun row =>
        (update_set_cols all_cols pk_cols ++ pk_cols).map
          (fun c => row.getD (all_cols.indexOf c) default)) ∧
    build_update_sql "MY_TABLE" ["PK1", "A", "B", "PK2"] ["PK1", "PK2"] =
      "UPDATE MY_TABLE SET A = :1, B = :2 WHERE PK1 = :3 AND PK2 = :4" ∧
    reorder_tuple_for_update
        [[PyVal.int 1, PyVal.str "a", PyVal.str "b", PyVal.int 2],
         [PyVal.int 3, PyVal.str "x", PyVal.str "y", PyVal.int 4]]
        ["PK1", "A", "B", "PK2"] ["PK1", "PK2"] =
      [[PyVal.str "a", PyVal.str "b", PyVal.int 1, PyVal.int 2],
       [PyVal.str "x", PyVal.str "y", PyVal.int 3, PyVal.int 4]] := by
  refine ⟨?_, by rfl, by rfl⟩
  unfold reorder_tuple_for_update
  apply List.map_congr_left
  intro row _
  rw [List.map_append]
  congr 1
  · have h0 : all_cols.enum = List.enumFrom 0 all_cols := rfl
    unfold set_col_indexes update_set_cols
    rw [h0, List.map_map]
    have h1 := map_enumFrom_filter pk_cols (fun i => row.getD i default) all_cols 0 hnd
    simpa using h1
  · unfold pk_col_indexes
    rw [List.map_map]
    rfl

/-- Witness for C1 at the concrete input of the claim. -/
theorem update_binding_order_matches_witness :
    (["PK1", "A", "B", "PK2"] : List String).Nodup ∧
    reorder_tuple_for_update
        [[PyVal.int 1, PyVal.str "a", PyVal.str "b", PyVal.int 2]]
        ["PK1", "A", "B", "PK2"] ["PK1", "PK2"] =
      [[PyVal.int 1, PyVal.str "a", PyVal.str "b", PyVal.int 2]].map (fun row =>
        (update_set_cols ["PK1", "A", "B", "PK2"] ["PK1", "PK2"] ++ ["PK1", "PK2"]).map
          (fun c => row.getD ((["PK1", "A", "B", "PK2"] : List String).indexOf c) default)) :=
  ⟨by decide,
   (update_binding_order_matches ["PK1", "A", "B", "PK2"] ["PK1", "PK2"]
      [[PyVal.int 1, PyVal.str "a", PyVal.str "b", PyVal.int 2]] (by decide)).1⟩

lemma find?_map_update (rows : List (String × SeqRow)) (ent : String) (v now : Int)
    (h : (rows.find? (fun p => p.1 == ent)).isSome) :
    (rows.map (fun p => if p.1 == ent then (p.1, SeqRow.mk (some v) now) else p)).find?
        (fun p => p.1 == ent) = some (ent, SeqRow.mk (some v) now) := by
  induction rows with
  | nil => simp at h
  | cons p rest ih =>
    by_cases hp : (p.1 == ent) = true
    · have hp' : p.1 = ent := by simpa using hp
      subst hp'
      simp only [List.map_cons, hp, if_true]
      exact @List.find?_cons_of_pos _ (fun q => q.1 == p.1)
        (p.1, SeqRow.mk (some v) now) _ (by simp)
    · have hp' : (p.1 == ent) = false := by simpa using hp
      simp only [List.map_cons, hp', Bool.false_eq_true, if_false]
      rw [@List.find?_cons_of_neg _ (fun q => q.1 == ent) p _ hp]
      apply ih
      rw [@List.find?_cons_of_neg _ (fun q => q.1 == ent) p _ hp] at h
      exact h

lemma seqLookup_seqUpdate_self (t : SeqTable) (ent : String) (v now : Int)
    (h : (seqLookup t ent).isSome) :
    seqLookup (seqUpdate t ent v now) ent = some ⟨some v, now⟩ := by
  unfold seqLookup at h ⊢
  unfold seqUpdate
  rw [find?_map_update t.rows ent v now (by simpa using h)]
  rfl

/-- **C2**: for every entity with an existing counter row at stored threshold
`t0` (null read as 0) and block size `b ≥ 1`, allocation succeeds with ids
exactly the contiguous inclusive range `[t0+1, ..., t0+b]` (in order) and
stores threshold `t0 + b`; e.g. threshold 10, block 3 gives `[11, 12, 13]`
and stored threshold 13. -/
theorem allocate_block_contiguous (t : SeqTable) (now : Int) (ent : String)
    (row : SeqRow) (t0 : Int) (b : Nat)
    (hrow : seqLookup t ent = some row)
    (ht0 : row.last_threshold.getD 0 = t0) (hb : 1 ≤ b) :
    ∃ r : AllocResult,
      allocate_custom_sequence_block t now ent b = Except.ok r ∧
      r.ids = (List.range b).map (fun (i : Nat) => t0 + 1 + (i : Int)) ∧
      r.ids.length = b ∧
      (∀ x : Int, x ∈ r.ids ↔ t0 + 1 ≤ x ∧ x ≤ t0 + b) ∧
      seqLookup r.table ent = some ⟨some (t0 + b), now⟩ := by
  simp only [allocate_custom_sequence_block, hrow, ht0]
  refine ⟨_, rfl, ?_, ?_, ?_, ?_⟩
  · unfold intRange
    have hh : (t0 + (b : Int) + 1 - (t0 + 1)).toNat = b := by omega
    rw [hh]
  · unfold intRange
    rw [List.length_map, List.length_range]
    omega
  · intro x
    unfold intRange
    have hh : (t0 + (b : Int) + 1 - (t0 + 1)).toNat = b := by omega
    rw [hh]
    simp only [List.mem_map, List.mem_range]
    constructor
    · rintro ⟨i, hi, rfl⟩
      refine ⟨by omega, by omega⟩
    · intro hx
      exact ⟨(x - (t0 + 1)).toNat, by omega, by omega⟩
  · exact seqLookup_seqUpdate_self t ent (t0 + b) now (by rw [hrow]; rfl)

/-- Witness for C2: entity `ORDERS` at stored threshold 10, block size 3. -/
theorem allocate_block_contiguous_witness :
    (seqLookup ⟨[("ORDERS", ⟨some 10, 0⟩)]⟩ "ORDERS" = some ⟨some 10, 0⟩) ∧
    ∃ r : AllocResult,
      allocate_custom_sequence_block ⟨[("ORDERS", ⟨some 10, 0⟩)]⟩ 99 "ORDERS" 3 = Except.ok r ∧
      r.ids = (List.range 3).map (fun (i : Nat) => (10 : Int) + 1 + (i : Int)) ∧
      r.ids.length = 3 ∧
      (∀ x : Int, x ∈ r.ids ↔ 10 + 1 ≤ x ∧ x ≤ 10 + (3 : Nat)) ∧
      seqLookup r.table "ORDERS" = some ⟨some (10 + (3 : Nat)), 99⟩ :=
  ⟨rfl, allocate_block_contiguous ⟨[("ORDERS", ⟨some 10, 0⟩)]⟩ 99 "ORDERS"
      ⟨some 10, 0⟩ 10 3 rfl rfl (by decide)⟩

/-- Counterexample to **C8** as stated: called directly with block size 0
(entity `ORDERS`, stored threshold 10, stored timestamp 0, call time 5), the
allocator does return an empty id list, but it does NOT leave the counter row
untouched and it does issue SQL: the locking SELECT and the UPDATE are sent
and the row's `LAST_CHANGED_AT` becomes the call time. -/
theorem alloc_zero_block_claim_false :
    ¬ ∃ r : AllocResult,
        allocate_custom_sequence_block ⟨[("ORDERS", ⟨some 10, 0⟩)]⟩ 5 "ORDERS" 0 =
          Except.ok r ∧
        r.ids = [] ∧ r.sql_issued = [] ∧ r.table = ⟨[("ORDERS", ⟨some 10, 0⟩)]⟩ := by
  rintro ⟨r, hok, -, hsql, -⟩
  have h1 : allocate_custom_sequence_block ⟨[("ORDERS", ⟨some 10, 0⟩)]⟩ 5 "ORDERS" 0 =
      Except.ok
        { ids := [],
          table := ⟨[("ORDERS", ⟨some 10, 5⟩)]⟩,
          sql_issued :=
            ["SELECT LAST_THRESHOLD FROM SEQUENCES WHERE ENTITYNAME = :ent FOR UPDATE",
             "UPDATE SEQUENCES SET LAST_THRESHOLD = :new_thr, LAST_CHANGED_AT = SYSDATE WHERE ENTITYNAME = :ent"],
          committed := true } := by rfl
  rw [h1] at hok
  cases hok
  simp at hsql

/-- **C8 (amended)**: with block size 0 (entity present) the allocator
returns the empty id list and the stored threshold keeps its effective value
(null read as 0), but it still issues both the locking SELECT and the UPDATE
and commits, refreshing the row's last-modified timestamp to the call time. -/
theorem alloc_zero_block_behavior (t : SeqTable) (now : Int) (ent : String)
    (row : SeqRow) (hrow : seqLookup t ent = some row) :
    ∃ r : AllocResult,
      allocate_custom_sequence_block t now ent 0 = Except.ok r ∧
      r.ids = [] ∧
      r.sql_issued.length = 2 ∧
      r.committed = true ∧
      seqLookup r.table ent = some ⟨some (row.last_threshold.getD 0), now⟩ := by
  simp only [allocate_custom_sequence_block, hrow]
  refine ⟨_, rfl, ?_, rfl, rfl, ?_⟩
  · unfold intRange
    have hz : (row.last_threshold.getD 0 + ((0 : Nat) : Int) + 1 -
        (row.last_threshold.getD 0 + 1)).toNat = 0 := by omega
    rw [hz]
    rfl
  · have h2 := seqLookup_seqUpdate_self t ent
      (row.last_threshold.getD 0 + ((0 : Nat) : Int)) now (by rw [hrow]; rfl)
    simpa using h2

/-- Witness for the amended C8 at a concrete table. -/
theorem alloc_zero_block_behavior_witness :
    (seqLookup ⟨[("ORDERS", ⟨some 10, 0⟩)]⟩ "ORDERS" = some ⟨some 10, 0⟩) ∧
    ∃ r : AllocResult,
      allocate_custom_sequence_block ⟨[("ORDERS", ⟨some 10, 0⟩)]⟩ 5 "ORDERS" 0 =
        Except.ok r ∧
      r.ids = [] ∧
      r.sql_issued.length = 2 ∧
      r.committed = true ∧
      seqLookup r.table "ORDERS" =
        some ⟨some ((SeqRow.mk (some 10) 0).last_threshold.getD 0), 5⟩ :=
  ⟨rfl, alloc_zero_block_behavior ⟨[("ORDERS", ⟨some 10, 0⟩)]⟩ 5 "ORDERS" ⟨some 10, 0⟩ rfl⟩

lemma pool_connect_eq (s : PoolState) (now : Int) :
    pool_connect s now = (s.next_conn,
      { created_at := (s.next_conn, now) :: s.created_at,
        next_conn := s.next_conn + 1, closed := s.closed, minted := s.minted + 1 }) := rfl

lemma lookup_created_at_filter_self (m : List (Nat × Int)) (c : Nat) :
    lookup_created_at (m.filter (fun p => p.1 != c)) c = Option.none := by
  unfold lookup_created_at
  rw [List.find?_eq_none.mpr]
  · rfl
  · intro x hx
    have hx2 := (List.mem_filter.mp hx).2
    simp only [bne_iff_ne, ne_eq] at hx2
    simp [hx2]

/-- **C3**: a connection handed out by `getconn` whose recorded age
`now - createdAt` exceeds the token TTL is closed, its bookkeeping entry is
removed, and a brand-new physical connection (fresh identity, one more
minted credential) is returned with `createdAt` equal to the acquire time;
a connection within the TTL is returned unchanged. -/
theorem getconn_age_rotation (ttl : Int) (s : PoolState) (conn : Nat)
    (now created : Int)
    (hrec : lookup_created_at s.created_at conn = some created)
    (hfresh : conn < s.next_conn) :
    (now - created > ttl →
      (pool_getconn ttl s conn now).1 = s.next_conn ∧
      (pool_getconn ttl s conn now).1 ≠ conn ∧
      conn ∈ (pool_getconn ttl s conn now).2.closed ∧
      lookup_created_at (pool_getconn ttl s conn now).2.created_at conn = Option.none ∧
      lookup_created_at (pool_getconn ttl s conn now).2.created_at
        (pool_getconn ttl s conn now).1 = some now ∧
      (pool_getconn ttl s conn now).2.minted = s.minted + 1) ∧
    (now - created ≤ ttl → pool_getconn ttl s conn now = (conn, s)) := by
  constructor
  · intro hstale
    have hgc : pool_getconn ttl s conn now =
        pool_connect { s with closed := conn :: s.closed,
                              created_at := s.created_at.filter (fun p => p.1 != conn) } now := by
      unfold pool_getconn
      rw [hrec]
      simp only [Option.getD_some]
      rw [if_pos hstale]
    rw [hgc, pool_connect_eq]
    dsimp only
    refine ⟨rfl, by omega, by simp, ?_, ?_, rfl⟩
    · show lookup_created_at ((s.next_conn, now) :: _) conn = Option.none
      unfold lookup_created_at
      rw [@List.find?_cons_of_neg _ (fun p => p.1 == conn) (s.next_conn, now) _ (by simp; omega)]
      exact lookup_created_at_filter_self s.created_at conn
    · show lookup_created_at ((s.next_conn, now) :: _) s.next_conn = some now
      unfold lookup_created_at
      rw [@List.find?_cons_of_pos _ (fun p => p.1 == s.next_conn) (s.next_conn, now) _ (by simp)]
      rfl
  · intro hok
    unfold pool_getconn
    rw [hrec]
    simp only [Option.getD_some]
    rw [if_neg (by omega)]

/-- Witness for C3: recorded connection 3 created at 50, acquired at 1000001
with TTL 900 (stale branch); the fresh branch is exercised at time 500. -/
theorem getconn_age_rotation_witness :
    (lookup_created_at [(3, 50)] 3 = some 50) ∧ (3 < 4) ∧
    (((1000001 : Int) - 50 > 900) →
      (pool_getconn 900 ⟨[(3, 50)], 4, [], 1⟩ 3 1000001).1 = (4 : Nat) ∧
      (pool_getconn 900 ⟨[(3, 50)], 4, [], 1⟩ 3 1000001).1 ≠ 3 ∧
      3 ∈ (pool_getconn 900 ⟨[(3, 50)], 4, [], 1⟩ 3 1000001).2.closed ∧
      lookup_created_at (pool_getconn 900 ⟨[(3, 50)], 4, [], 1⟩ 3 1000001).2.created_at 3 =
        Option.none ∧
      lookup_created_at (pool_getconn 900 ⟨[(3, 50)], 4, [], 1⟩ 3 1000001).2.created_at
        (pool_getconn 900 ⟨[(3, 50)], 4, [], 1⟩ 3 1000001).1 = some 1000001 ∧
      (pool_getconn 900 ⟨[(3, 50)], 4, [], 1⟩ 3 1000001).2.minted = 1 + 1) ∧
    (((500 : Int) - 50 ≤ 900) →
      pool_getconn 900 ⟨[(3, 50)], 4, [], 1⟩ 3 500 = (3, ⟨[(3, 50)], 4, [], 1⟩)) :=
  ⟨rfl, by decide,
   (getconn_age_rotation 900 ⟨[(3, 50)], 4, [], 1⟩ 3 1000001 50 rfl (by decide)).1,
   (getconn_age_rotation 900 ⟨[(3, 50)], 4, [], 1⟩ 3 500 50 rfl (by decide)).2⟩

/-- **C9**: a connection with no recorded creation timestamp is treated as
age zero by `getconn`: with a nonnegative TTL it is returned unchanged —
never closed or replaced — and the pool state (including its absent
timestamp entry) is untouched. -/
theorem getconn_unrecorded_passthrough (ttl : Int) (s : PoolState) (conn : Nat)
    (now : Int)
    (hrec : lookup_created_at s.created_at conn = Option.none) (httl : 0 ≤ ttl) :
    pool_getconn ttl s conn now = (conn, s) := by
  unfold pool_getconn
  rw [hrec]
  simp only [Option.getD_none]
  rw [if_neg (by omega)]

/-- Witness for C9: connection 7 has no entry in the bookkeeping map. -/
theorem getconn_unrecorded_passthrough_witness :
    (lookup_created_at [(3, 50)] 7 = Option.none) ∧ ((0 : Int) ≤ 900) ∧
    pool_getconn 900 ⟨[(3, 50)], 4, [], 1⟩ 7 123456789 = (7, ⟨[(3, 50)], 4, [], 1⟩) :=
  ⟨rfl, by decide,
   getconn_unrecorded_passthrough 900 ⟨[(3, 50)], 4, [], 1⟩ 7 123456789 rfl (by decide)⟩

/-- **C4** (evaluating the code at the failing inputs): the fail-fast halves
of the claim hold — a missing mode, an unknown mode, and `update` without
`pk_cols` all error out before any operation is dispatched — but the
dispatch itself never succeeds: a valid `mode=insert` call forwards `mode`
into `insert_data`, whose signature rejects it (`TypeError`), and a valid
`mode=update` call with `pk_cols` passes `pk_cols` both explicitly and via
`**kwargs` (`TypeError`), so the supplied options are never forwarded to the
operation. -/
theorem write_dispatch_never_reaches_operation :
    write_as_dataframe [("mode", PyVal.str "insert")] =
      Except.error (PyError.typeError "insert_data() got an unexpected keyword argument") ∧
    write_as_dataframe
        [("mode", PyVal.str "insert"), ("pk_col", PyVal.str "ID"),
         ("sequence_name", PyVal.str "TABLE2")] =
      Except.error (PyError.typeError "insert_data() got an unexpected keyword argument") ∧
    write_as_dataframe
        [("mode", PyVal.str "update"), ("pk_cols", PyVal.strList ["ID"])] =
      Except.error (PyError.typeError "update_data() got multiple values for keyword argument pk_cols") ∧
    write_as_dataframe [] =
      Except.error (PyError.assertionError "You must pass mode keyword argument. Allowed values: insert or update") ∧
    write_as_dataframe [("mode", PyVal.str "merge")] =
      Except.error (PyError.assertionError "Invalid mode. Allowed values are insert or update.") ∧
    write_as_dataframe [("mode", PyVal.str "update")] =
      Except.error (PyError.valueError "update mode requires pk_cols in kwargs!") :=
  ⟨rfl, rfl, rfl, rfl, rfl, rfl⟩

lemma insertLoop_eq_nil_iff (rows : List α) (cs start : Nat) :
    insertLoop rows cs start = [] ↔ ¬(0 < cs ∧ start < rows.length) := by
  rw [insertLoop]
  split
  · rename_i h
    simp [h]
  · rename_i h
    simp [h]

lemma insertLoop_flatten (rows : List α) (cs : Nat) (hcs : 0 < cs) :
    ∀ start, (insertLoop rows cs start).flatten = rows.drop start := by
  intro start
  induction start using insertLoop.induct rows cs with
  | case1 start h ih =>
    rw [insertLoop, dif_pos h, List.flatten_cons, ih]
    have h2 : rows.drop (start + cs) = (rows.drop start).drop cs := by
      rw [List.drop_drop]
    rw [h2, List.take_append_drop]
  | case2 start h =>
    rw [insertLoop, dif_neg h]
    have hlen : rows.length ≤ start := by omega
    rw [List.drop_eq_nil_of_le hlen]
    rfl

lemma insertLoop_length (rows : List α) (cs : Nat) (hcs : 0 < cs) :
    ∀ start, (insertLoop rows cs start).length = (rows.length - start + cs - 1) / cs := by
  intro start
  induction start using insertLoop.induct rows cs with
  | case1 start h ih =>
    rw [insertLoop, dif_pos h, List.length_cons, ih]
    have key : (rows.length - (start + cs) + cs - 1) / cs =
        (rows.length - start - 1) / cs := by
      rcases le_or_lt cs (rows.length - start) with hle | hlt
      · congr 1
        omega
      · rw [Nat.div_eq_of_lt (by omega), Nat.div_eq_of_lt (by omega)]
    rw [key]
    have h3 : rows.length - start + cs - 1 = (rows.length - start - 1) + cs := by omega
    rw [h3, Nat.add_div_right _ hcs]
  | case2 start h =>
    rw [insertLoop, dif_neg h]
    rw [Nat.div_eq_of_lt (by omega)]
    rfl

lemma insertLoop_dropLast_length (rows : List α) (cs : Nat) :
    ∀ start, ∀ c ∈ (insertLoop rows cs start).dropLast, c.length = cs := by
  intro start
  induction start using insertLoop.induct rows cs with
  | case1 start h ih =>
    rw [insertLoop, dif_pos h]
    intro c hc
    by_cases hnil : insertLoop rows cs (start + cs) = []
    · rw [hnil] at hc
      simp at hc
    · rw [List.dropLast_cons_of_ne_nil hnil] at hc
      rcases List.mem_cons.mp hc with rfl | hc2
      · have hcond := not_iff_not.mpr (insertLoop_eq_nil_iff rows cs (start + cs)) |>.mp hnil
        rw [not_not] at hcond
        rw [List.length_take, List.length_drop]
        omega
      · exact ih c hc2
  | case2 start h =>
    rw [insertLoop, dif_neg h]
    intro c hc
    simp at hc

lemma insertLoop_chunk_sizes (rows : List α) (cs : Nat) :
    ∀ start, ∀ c ∈ insertLoop rows cs start, 0 < c.length ∧ c.length ≤ cs := by
  intro start
  induction start using insertLoop.induct rows cs with
  | case1 start h ih =>
    rw [insertLoop, dif_pos h]
    intro c hc
    rcases List.mem_cons.mp hc with rfl | hc2
    · rw [List.length_take, List.length_drop]
      omega
    · exact ih c hc2
  | case2 start h =>
    rw [insertLoop, dif_neg h]
    intro c hc
    simp at hc

lemma insertRun_all_ok (rows : List α) (cs : Nat) (fails : Nat → Bool) :
    ∀ start k, (∀ j, k ≤ j → fails j = false) →
      insertRun rows cs fails start k =
        ((insertLoop rows cs start).flatMap
           (fun c => [ChunkEvent.exec c, ChunkEvent.commit]), true) := by
  intro start
  induction start using insertLoop.induct rows cs with
  | case1 start h ih =>
    intro k hok
    rw [insertRun, dif_pos h, insertLoop, dif_pos h, List.flatMap_cons]
    rw [hok k (Nat.le_refl k)]
    simp only [Bool.false_eq_true, if_false]
    rw [ih (k + 1) (fun j hj => hok j (by omega))]
    rfl
  | case2 start h =>
    intro k hok
    rw [insertRun, dif_neg h, insertLoop, dif_neg h]
    rfl

lemma insertRun_fails_at (rows : List α) (cs : Nat) (fails : Nat → Bool) :
    ∀ start k kf, k ≤ kf →
      (∀ j, k ≤ j → j < kf → fails j = false) → fails kf = true →
      kf - k < (insertLoop rows cs start).length →
      insertRun rows cs fails start k =
        (((insertLoop rows cs start).take (kf - k)).flatMap
            (fun c => [ChunkEvent.exec c, ChunkEvent.commit]) ++
          [ChunkEvent.exec ((insertLoop rows cs start).getD (kf - k) []),
           ChunkEvent.rollback], false) := by
  intro start
  induction start using insertLoop.induct rows cs with
  | case1 start h ih =>
    intro k kf hk hok hf hlt
    rw [insertLoop, dif_pos h] at hlt ⊢
    rw [insertRun, dif_pos h]
    by_cases hkk : kf = k
    · subst hkk
      rw [hf]
      simp
    · have hk1 : k + 1 ≤ kf := by omega
      rw [hok k (Nat.le_refl k) (by omega)]
      simp only [Bool.false_eq_true, if_false]
      rw [ih (k + 1) kf hk1 (fun j hj1 hj2 => hok j (by omega) hj2) hf
            (by simp only [List.length_cons] at hlt; omega)]
      have hsub : kf - k = (kf - (k + 1)) + 1 := by omega
      rw [hsub]
      rw [List.take_cons (by omega), List.flatMap_cons]
      simp only [Nat.add_sub_cancel, List.getD_cons_succ]
      rfl
  | case2 start h =>
    intro k kf hk hok hf hlt
    rw [insertLoop, dif_neg h] at hlt
    simp at hlt

/-- **C5**: an insert batch of `n` rows at chunk size `cs ≥ 1` is split into
`ceil(n/cs)` chunks in order whose concatenation is the batch, all of size
`cs` except a final partial chunk; each chunk is executed as one multi-row
insert followed by its own commit before the next chunk begins; on a failure
at chunk `k` the failing chunk is rolled back and the error re-raised, the
chunks before `k` stay committed and the chunks after `k` are never issued;
and 120000 rows at chunk size 50000 give exactly chunks of 50000, 50000 and
20000 rows. -/
theorem insert_chunked_commit (rows : List α) (cs : Nat) (fails : Nat → Bool)
    (hcs : 1 ≤ cs) :
    (insert_chunks rows cs).length = (rows.length + cs - 1) / cs ∧
    (insert_chunks rows cs).flatten = rows ∧
    (∀ c ∈ (insert_chunks rows cs).dropLast, c.length = cs) ∧
    (∀ c ∈ insert_chunks rows cs, 0 < c.length ∧ c.length ≤ cs) ∧
    ((∀ j, fails j = false) →
      insertRun rows cs fails 0 0 =
        ((insert_chunks rows cs).flatMap
           (fun c => [ChunkEvent.exec c, ChunkEvent.commit]), true)) ∧
    (∀ kf, (∀ j, j < kf → fails j = false) → fails kf = true →
      kf < (insert_chunks rows cs).length →
      insertRun rows cs fails 0 0 =
        (((insert_chunks rows cs).take kf).flatMap
            (fun c => [ChunkEvent.exec c, ChunkEvent.commit]) ++
          [ChunkEvent.exec ((insert_chunks rows cs).getD kf []),
           ChunkEvent.rollback], false)) ∧
    (∀ rows2 : List α, rows2.length = 120000 →
      (insert_chunks rows2 50000).map List.length = [50000, 50000, 20000]) := by
  unfold insert_chunks
  refine ⟨?_, ?_, insertLoop_dropLast_length rows cs 0,
    insertLoop_chunk_sizes rows cs 0, ?_, ?_, ?_⟩
  · rw [insertLoop_length rows cs hcs 0]
    simp
  · rw [insertLoop_flatten rows cs hcs 0, List.drop_zero]
  · intro hall
    exact insertRun_all_ok rows cs fails 0 0 (fun j _ => hall j)
  · intro kf h1 h2 h3
    have h4 := insertRun_fails_at rows cs fails 0 0 kf (Nat.zero_le kf)
      (fun j _ hj => h1 j hj) h2 (by simpa using h3)
    simpa using h4
  · intro rows2 hlen
    rw [insertLoop, dif_pos (by omega)]
    rw [insertLoop, dif_pos (by omega)]
    rw [insertLoop, dif_pos (by omega)]
    rw [insertLoop, dif_neg (by omega)]
    simp [List.length_take, List.length_drop, hlen]

/-- Witness for C5 at a concrete 5-row batch with chunk size 2. -/
theorem insert_chunked_commit_witness :
    (1 ≤ 2) ∧
    (insert_chunks ([10, 20, 30, 40, 50] : List Nat) 2).length =
      (([10, 20, 30, 40, 50] : List Nat).length + 2 - 1) / 2 :=
  ⟨by decide,
   (insert_chunked_commit ([10, 20, 30, 40, 50] : List Nat) 2 (fun _ => false)
      (by decide)).1⟩

lemma pg_write_loop_eq (cols mo : List String) (rows : List (List PyVal))
    (cs : Nat) (hcs : 0 < cs) :
    ∀ start, pg_write_loop cols mo rows cs start =
      (insertLoop rows cs start).map
        (fun c => PgEvent.merge (merge_batch_stmt cols mo c.length) c) := by
  intro start
  induction start using pg_write_loop.induct cols mo rows cs with
  | case1 start h e ih =>
    rw [pg_write_loop, dif_pos h, insertLoop, dif_pos h, List.map_cons]
    dsimp only
    have htake : List.take ((start + cs) ⊓ rows.length - start) (List.drop start rows) =
        List.take cs (List.drop start rows) := by
      rw [List.take_eq_take, List.length_drop]
      omega
    have hlen : (List.take cs (List.drop start rows)).length =
        (start + cs) ⊓ rows.length - start := by
      rw [List.length_take, List.length_drop]
      omega
    rw [htake, ← hlen]
    congr 1
    have he2 : e = (start + cs) ⊓ rows.length := rfl
    rcases le_or_lt (start + cs) rows.length with hle | hgt
    · have he : (start + cs) ⊓ rows.length = start + cs := by omega
      rw [he]
      rw [he2, he] at ih
      exact ih
    · have he : (start + cs) ⊓ rows.length = rows.length := by omega
      rw [he]
      have h1 : pg_write_loop cols mo rows cs rows.length = [] := by
        rw [pg_write_loop, dif_neg (by omega)]
      have h2 : insertLoop rows cs (start + cs) = [] := by
        rw [insertLoop, dif_neg (by omega)]
      rw [h1, h2, List.map_nil]
  | case2 start h =>
    rw [pg_write_loop, dif_neg h, insertLoop, dif_neg h, List.map_nil]

/-- A concrete three-row batch with columns `[ID, V]` for the Postgres
writer examples. -/
def pgRows3 : List (List PyVal) :=
  [[PyVal.int 1, PyVal.int 10], [PyVal.int 2, PyVal.int 20], [PyVal.int 3, PyVal.int 30]]

lemma pgRows3_chunks : insertLoop pgRows3 2 0 =
    [[[PyVal.int 1, PyVal.int 10], [PyVal.int 2, PyVal.int 20]],
     [[PyVal.int 3, PyVal.int 30]]] := by
  rw [insertLoop, dif_pos (by norm_num [pgRows3])]
  rw [insertLoop, dif_pos (by norm_num [pgRows3])]
  rw [insertLoop, dif_neg (by norm_num [pgRows3])]
  decide

/-- Counterexample to **C6** as stated: for the three-row batch `pgRows3`
with `merge_on = ID` and chunk size 2, the Postgres writer does NOT commit
each chunk before the next chunk begins (the claimed per-chunk
merge-then-commit event stream); it executes both MERGE statements and then
issues one single commit. -/
theorem pg_merge_per_chunk_commit_false :
    pg_write_as_dataframe ["ID", "V"] pgRows3 (Sum.inl "ID") (some 2) ≠
      (insertLoop pgRows3 2 0).flatMap
        (fun c => [PgEvent.merge (merge_batch_stmt ["ID", "V"] ["ID"] c.length) c,
                   PgEvent.commit]) := by
  have h1 : pg_write_as_dataframe ["ID", "V"] pgRows3 (Sum.inl "ID") (some 2) =
      (insertLoop pgRows3 2 0).map
        (fun c => PgEvent.merge (merge_batch_stmt ["ID", "V"] ["ID"] c.length) c) ++
      [PgEvent.commit] := by
    unfold pg_write_as_dataframe
    rw [if_neg (by norm_num [pgRows3])]
    dsimp only [normalize_merge_on]
    rw [if_pos (by norm_num)]
    rw [pg_write_loop_eq ["ID", "V"] ["ID"] pgRows3 ((2 : Int)).toNat (by norm_num) 0]
    rfl
  rw [h1, pgRows3_chunks]
  decide

/-- **C6 (amended)**: with a positive chunk size the Postgres writer builds
exactly one MERGE statement per chunk of the batch, in order — each matching
rows on the caller-specified key column(s), updating every non-key column
for matched rows and inserting the full column list for unmatched rows —
but, unlike the Oracle insert/update paths, a single commit is issued once
after all chunks have executed (so a failure rolls back the whole batch, not
just the current chunk). -/
theorem pg_merge_chunks_single_commit (cols : List String)
    (rows : List (List PyVal)) (merge_on : String ⊕ List String) (cs : Int)
    (hrows : rows ≠ []) (hcs : 0 < cs) :
    pg_write_as_dataframe cols rows merge_on (some cs) =
      ((insertLoop rows cs.toNat 0).map
        (fun c => PgEvent.merge
          (merge_batch_stmt cols (normalize_merge_on merge_on) c.length) c)) ++
      [PgEvent.commit] ∧
    (insertLoop rows cs.toNat 0).flatten = rows ∧
    (insertLoop rows cs.toNat 0).length = (rows.length + cs.toNat - 1) / cs.toNat ∧
    (pg_write_as_dataframe cols rows merge_on (some cs)).count PgEvent.commit = 1 ∧
    (∀ st c, PgEvent.merge st c ∈ pg_write_as_dataframe cols rows merge_on (some cs) →
      st.on_cols = normalize_merge_on merge_on ∧
      st.matched_set_cols =
        cols.filter (fun x => !(normalize_merge_on merge_on).contains x) ∧
      st.insert_cols = cols) := by
  have hpos : 0 < cs.toNat := by omega
  have h1 : pg_write_as_dataframe cols rows merge_on (some cs) =
      ((insertLoop rows cs.toNat 0).map
        (fun c => PgEvent.merge
          (merge_batch_stmt cols (normalize_merge_on merge_on) c.length) c)) ++
      [PgEvent.commit] := by
    unfold pg_write_as_dataframe
    rw [if_neg (by simp [hrows])]
    dsimp only
    rw [if_pos hcs]
    rw [pg_write_loop_eq cols (normalize_merge_on merge_on) rows cs.toNat hpos 0]
  refine ⟨h1, ?_, ?_, ?_, ?_⟩
  · rw [insertLoop_flatten rows cs.toNat hpos 0, List.drop_zero]
  · rw [insertLoop_length rows cs.toNat hpos 0]
    simp
  · rw [h1, List.count_append]
    have hz : ((insertLoop rows cs.toNat 0).map
        (fun c => PgEvent.merge
          (merge_batch_stmt cols (normalize_merge_on merge_on) c.length) c)).count
        PgEvent.commit = 0 := by
      rw [List.count_eq_zero]
      intro hmem
      rcases List.mem_map.mp hmem with ⟨c, -, hc⟩
      exact PgEvent.noConfusion hc
    rw [hz]
    rfl
  · intro st c hmem
    rw [h1] at hmem
    rcases List.mem_append.mp hmem with hm | hm
    · rcases List.mem_map.mp hm with ⟨c2, -, hc2⟩
      cases hc2
      exact ⟨rfl, rfl, rfl⟩
    · simp at hm

/-- Witness for the amended C6: three rows, chunk size 2, one commit. -/
theorem pg_merge_chunks_single_commit_witness :
    (pgRows3 ≠ []) ∧ ((0 : Int) < 2) ∧
    pg_write_as_dataframe ["ID", "V"] pgRows3 (Sum.inl "ID") (some 2) =
      ((insertLoop pgRows3 ((2 : Int)).toNat 0).map
        (fun c => PgEvent.merge
          (merge_batch_stmt ["ID", "V"] (normalize_merge_on (Sum.inl "ID")) c.length) c)) ++
      [PgEvent.commit] :=
  ⟨by decide, by decide,
   (pg_merge_chunks_single_commit ["ID", "V"] pgRows3 (Sum.inl "ID") 2
      (by decide) (by decide)).1⟩

lemma getD_set_self (l : List PyVal) (i : Nat) (a d : PyVal) (h : i < l.length) :
    (l.set i a).getD i d = a := by
  rw [List.getD_eq_getElem?_getD, List.getElem?_set_self h]
  rfl

lemma getD_set_ne (l : List PyVal) (i j : Nat) (a d : PyVal) (h : i ≠ j) :
    (l.set i a).getD j d = l.getD j d := by
  rw [List.getD_eq_getElem?_getD, List.getElem?_set_ne h, ← List.getD_eq_getElem?_getD]

lemma getD_append_left (l1 l2 : List PyVal) (j : Nat) (d : PyVal) (h : j < l1.length) :
    (l1 ++ l2).getD j d = l1.getD j d := by
  rw [List.getD_eq_getElem?_getD, List.getElem?_append, if_pos h,
    ← List.getD_eq_getElem?_getD]

lemma getD_concat_self (l : List PyVal) (v d : PyVal) :
    (l ++ [v]).getD l.length d = v := by
  rw [List.getD_eq_getElem?_getD, List.getElem?_append, if_neg (by omega)]
  simp

lemma indexOf?_getElem (l : List String) (c : String) :
    ∀ i, l.indexOf? c = some i → l[i]? = some c := by
  induction l with
  | nil => intro i h; simp at h
  | cons x xs ih =>
    intro i h
    rw [List.indexOf?_cons] at h
    by_cases hx : (x == c) = true
    · rw [if_pos hx] at h
      cases h
      simpa using hx
    · rw [if_neg hx] at h
      rcases Option.map_eq_some'.mp h with ⟨j, hj, rfl⟩
      simpa using ih j hj

lemma indexOf?_lt_length (l : List String) (c : String) (i : Nat)
    (h : l.indexOf? c = some i) : i < l.length := by
  have h1 := indexOf?_getElem l c i h
  by_contra hge
  rw [List.getElem?_eq_none (by omega)] at h1
  cases h1

lemma indexOf?_eq_none_of_not_mem (l : List String) (c : String) (h : c ∉ l) :
    l.indexOf? c = none := by
  rw [List.indexOf?_eq_none_iff]
  intro x hx
  simp only [beq_iff_eq]
  intro hxc
  exact h (hxc ▸ hx)

lemma indexOf?_isSome_of_mem (l : List String) (c : String) (h : c ∈ l) :
    ∃ i, l.indexOf? c = some i := by
  induction l with
  | nil => simp at h
  | cons x xs ih =>
    rw [List.indexOf?_cons]
    by_cases hx : (x == c) = true
    · exact ⟨0, by rw [if_pos hx]⟩
    · have hc : c ∈ xs := by
        rcases List.mem_cons.mp h with rfl | h2
        · simp at hx
        · exact h2
      rcases ih hc with ⟨j, hj⟩
      exact ⟨j + 1, by rw [if_neg hx, hj]; rfl⟩

lemma indexOf?_append_singleton_of_mem (l : List String) (c x : String) (h : c ∈ l) :
    (l ++ [x]).indexOf? c = l.indexOf? c := by
  induction l with
  | nil => simp at h
  | cons y ys ih =>
    rw [List.cons_append, List.indexOf?_cons, List.indexOf?_cons]
    by_cases hy : (y == c) = true
    · rw [if_pos hy, if_pos hy]
    · rw [if_neg hy, if_neg hy]
      have hc : c ∈ ys := by
        rcases List.mem_cons.mp h with rfl | h2
        · simp at hy
        · exact h2
      rw [ih hc]

lemma indexOf?_append_singleton_self (l : List String) (c : String) (h : c ∉ l) :
    (l ++ [c]).indexOf? c = some l.length := by
  induction l with
  | nil => simp [List.indexOf?_cons]
  | cons y ys ih =>
    rw [List.cons_append, List.indexOf?_cons]
    have hy : (y == c) = false := by
      simp only [beq_eq_false_iff_ne, ne_eq]
      intro hyc
      exact h (hyc ▸ List.mem_cons_self y ys)
    rw [if_neg (by simp [hy]), ih (fun h2 => h (List.mem_cons_of_mem y h2))]
    rfl

lemma map_zip_set_getD : ∀ (rows : List (List PyVal)) (vals : List PyVal) (i : Nat),
    rows.length = vals.length → (∀ r ∈ rows, i < r.length) →
    (((rows.zip vals).map (fun p => p.1.set i p.2)).map (fun r => r.getD i default)) = vals := by
  intro rows
  induction rows with
  | nil =>
    intro vals i hlen _
    cases vals with
    | nil => rfl
    | cons v vs => simp at hlen
  | cons r rs ih =>
    intro vals i hlen hi
    cases vals with
    | nil => simp at hlen
    | cons v vs =>
      simp only [List.zip_cons_cons, List.map_cons]
      rw [getD_set_self r i v default (hi r (List.mem_cons_self r rs))]
      rw [ih vs i (by simpa using hlen) (fun q hq => hi q (List.mem_cons_of_mem r hq))]

lemma map_zip_set_getD_ne : ∀ (rows : List (List PyVal)) (vals : List PyVal) (i j : Nat),
    rows.length = vals.length → i ≠ j →
    (((rows.zip vals).map (fun p => p.1.set i p.2)).map (fun r => r.getD j default)) =
      rows.map (fun r => r.getD j default) := by
  intro rows
  induction rows with
  | nil => intro vals i j _ _; rfl
  | cons r rs ih =>
    intro vals i j hlen hij
    cases vals with
    | nil => simp at hlen
    | cons v vs =>
      simp only [List.zip_cons_cons, List.map_cons]
      rw [getD_set_ne r i j v default hij]
      rw [ih vs i j (by simpa using hlen) hij]

lemma map_zip_concat_getD : ∀ (rows : List (List PyVal)) (vals : List PyVal) (n : Nat),
    rows.length = vals.length → (∀ r ∈ rows, r.length = n) →
    (((rows.zip vals).map (fun p => p.1 ++ [p.2])).map (fun r => r.getD n default)) = vals := by
  intro rows
  induction rows with
  | nil =>
    intro vals n hlen _
    cases vals with
    | nil => rfl
    | cons v vs => simp at hlen
  | cons r rs ih =>
    intro vals n hlen hn
    cases vals with
    | nil => simp at hlen
    | cons v vs =>
      simp only [List.zip_cons_cons, List.map_cons]
      have hrn : r.length = n := hn r (List.mem_cons_self r rs)
      have hhead : (r ++ [v]).getD n default = v := by
        rw [← hrn]
        exact getD_concat_self r v default
      rw [hhead, ih vs n (by simpa using hlen) (fun q hq => hn q (List.mem_cons_of_mem r hq))]

lemma map_zip_concat_getD_lt : ∀ (rows : List (List PyVal)) (vals : List PyVal) (j : Nat),
    rows.length = vals.length → (∀ r ∈ rows, j < r.length) →
    (((rows.zip vals).map (fun p => p.1 ++ [p.2])).map (fun r => r.getD j default)) =
      rows.map (fun r => r.getD j default) := by
  intro rows
  induction rows with
  | nil => intro vals j _ _; rfl
  | cons r rs ih =>
    intro vals j hlen hj
    cases vals with
    | nil => simp at hlen
    | cons v vs =>
      simp only [List.zip_cons_cons, List.map_cons]
      rw [getD_append_left r [v] j default (hj r (List.mem_cons_self r rs))]
      rw [ih vs j (by simpa using hlen) (fun q hq => hj q (List.mem_cons_of_mem r hq))]

lemma df_set_column_rows_length (df : DF) (c : String) (vals : List PyVal)
    (hlen : vals.length = df.rows.length) :
    (df_set_column df c vals).rows.length = df.rows.length := by
  unfold df_set_column
  cases h : df.cols.indexOf? c with
  | some i => simp [List.length_zip, hlen]
  | none => simp [List.length_zip, hlen]

lemma df_get_column_set_self (df : DF) (c : String) (vals : List PyVal)
    (hlen : vals.length = df.rows.length)
    (hwf : ∀ r ∈ df.rows, r.length = df.cols.length) :
    df_get_column (df_set_column df c vals) c = vals := by
  unfold df_set_column
  cases h : df.cols.indexOf? c with
  | some i =>
    unfold df_get_column
    simp only
    rw [h]
    exact map_zip_set_getD df.rows vals i hlen.symm
      (fun r hr => by rw [hwf r hr]; exact indexOf?_lt_length df.cols c i h)
  | none =>
    unfold df_get_column
    simp only
    have hnm : c ∉ df.cols := by
      intro hmem
      rcases indexOf?_isSome_of_mem df.cols c hmem with ⟨j, hj⟩
      rw [h] at hj
      cases hj
    rw [indexOf?_append_singleton_self df.cols c hnm]
    have h2 := map_zip_concat_getD df.rows vals df.cols.length hlen.symm hwf
    exact h2

lemma df_get_column_set_other (df : DF) (c c2 : String) (vals : List PyVal)
    (hne : c2 ≠ c)
    (hlen : vals.length = df.rows.length)
    (hwf : ∀ r ∈ df.rows, r.length = df.cols.length) :
    df_get_column (df_set_column df c vals) c2 = df_get_column df c2 := by
  unfold df_set_column
  cases h : df.cols.indexOf? c with
  | some i =>
    unfold df_get_column
    simp only
    cases h2 : df.cols.indexOf? c2 with
    | some j =>
      have hij : i ≠ j := by
        intro hij
        subst hij
        have e1 := indexOf?_getElem df.cols c i h
        have e2 := indexOf?_getElem df.cols c2 i h2
        rw [e1] at e2
        cases e2
        exact hne rfl
      exact map_zip_set_getD_ne df.rows vals i j hlen.symm hij
    | none => rfl
  | none =>
    unfold df_get_column
    simp only
    by_cases hmem : c2 ∈ df.cols
    · rw [indexOf?_append_singleton_of_mem df.cols c2 c hmem]
      cases h2 : df.cols.indexOf? c2 with
      | some j =>
        exact map_zip_concat_getD_lt df.rows vals j hlen.symm
          (fun r hr => by rw [hwf r hr]; exact indexOf?_lt_length df.cols c2 j h2)
      | none =>
        rcases indexOf?_isSome_of_mem df.cols c2 hmem with ⟨j, hj⟩
        rw [h2] at hj
    · have hn1 : df.cols.indexOf? c2 = none := indexOf?_eq_none_of_not_mem df.cols c2 hmem
      have hn2 : (df.cols ++ [c]).indexOf? c2 = none := by
        apply indexOf?_eq_none_of_not_mem
        intro hmem2
        rcases List.mem_append.mp hmem2 with hm | hm
        · exact hmem hm
        · rcases List.mem_singleton.mp hm with rfl
          exact hne rfl
      rw [hn1, hn2]

lemma df_set_column_cols_of_mem (df : DF) (c : String) (vals : List PyVal)
    (h : c ∈ df.cols) : (df_set_column df c vals).cols = df.cols := by
  unfold df_set_column
  rcases indexOf?_isSome_of_mem df.cols c h with ⟨i, hi⟩
  rw [hi]

lemma df_set_column_cols_of_not_mem (df : DF) (c : String) (vals : List PyVal)
    (h : c ∉ df.cols) : (df_set_column df c vals).cols = df.cols ++ [c] := by
  unfold df_set_column
  rw [indexOf?_eq_none_of_not_mem df.cols c h]

lemma df_set_column_wf (df : DF) (c : String) (vals : List PyVal)
    (hwf : ∀ r ∈ df.rows, r.length = df.cols.length) :
    ∀ r ∈ (df_set_column df c vals).rows,
      r.length = (df_set_column df c vals).cols.length := by
  unfold df_set_column
  cases h : df.cols.indexOf? c with
  | some i =>
    intro r hr
    simp only at hr ⊢
    rcases List.mem_map.mp hr with ⟨p, hp, rfl⟩
    rw [List.length_set]
    exact hwf p.1 (by obtain ⟨a, b⟩ := p; exact (List.of_mem_zip hp).1)
  | none =>
    intro r hr
    simp only at hr ⊢
    rcases List.mem_map.mp hr with ⟨p, hp, rfl⟩
    rw [List.length_append, List.length_append]
    simp only [List.length_singleton]
    have := hwf p.1 (by obtain ⟨a, b⟩ := p; exact (List.of_mem_zip hp).1)
    omega

lemma intRange_block (t0 : Int) (b : Nat) :
    intRange (t0 + 1) (t0 + b + 1) =
      (List.range b).map (fun (i : Nat) => t0 + 1 + (i : Int)) := by
  unfold intRange
  have hh : (t0 + (b : Int) + 1 - (t0 + 1)).toNat = b := by omega
  rw [hh]

lemma insert_prepare_spec (df : DF) (pk sq : String) (t : SeqTable) (now : Int)
    (row : SeqRow)
    (hpk : pk ≠ "") (hsq : sq ≠ "") (hne : df.rows ≠ [])
    (hwf : ∀ r ∈ df.rows, r.length = df.cols.length)
    (hrow : seqLookup t sq = some row) :
    ∃ df2 : DF,
      insert_data_prepare df (some pk) (some sq) t now =
        Except.ok (df2, seqUpdate t sq (row.last_threshold.getD 0 + df.rows.length) now) ∧
      df2.cols = (if df.cols.contains pk then df.cols else df.cols ++ [pk]) ∧
      df2.rows.length = df.rows.length ∧
      df_get_column df2 pk = (List.range df.rows.length).map
        (fun (i : Nat) => PyVal.int (row.last_threshold.getD 0 + 1 + (i : Int))) ∧
      (∀ c, c ≠ pk → df_get_column df2 c = df_get_column df c) := by
  have hlen0 : df.rows.length ≠ 0 := by
    intro h0
    exact hne (List.length_eq_zero.mp h0)
  have hos : optStr (some sq) = some sq := by unfold optStr; simp [hsq]
  have hop : optStr (some pk) = some pk := by unfold optStr; simp [hpk]
  set t0 := row.last_threshold.getD 0 with ht0
  set df1 := if df.cols.contains pk then df
             else df_set_column df pk (List.replicate df.rows.length PyVal.null) with hdf1
  have hrl : df1.rows.length = df.rows.length := by
    rw [hdf1]
    by_cases hc : df.cols.contains pk
    · rw [if_pos hc]
    · rw [if_neg hc]
      exact df_set_column_rows_length df pk _ (by simp)
  have hwf1 : ∀ r ∈ df1.rows, r.length = df1.cols.length := by
    rw [hdf1]
    by_cases hc : df.cols.contains pk
    · rw [if_pos hc]
      exact hwf
    · rw [if_neg hc]
      exact df_set_column_wf df pk _ hwf
  have hpkmem : pk ∈ df1.cols := by
    rw [hdf1]
    by_cases hc : df.cols.contains pk
    · rw [if_pos hc]
      exact List.mem_of_elem_eq_true hc
    · rw [if_neg hc, df_set_column_cols_of_not_mem df pk _
        (fun hmem => hc (List.elem_eq_true_of_mem hmem))]
      exact List.mem_append.mpr (Or.inr (List.mem_singleton.mpr rfl))
  have hids_len : ((intRange (t0 + 1) (t0 + df.rows.length + 1)).map PyVal.int).length =
      df.rows.length := by
    rw [intRange_block, List.map_map, List.length_map, List.length_range]
  have hmain : insert_data_prepare df (some pk) (some sq) t now =
      Except.ok (df_set_column df1 pk
          ((intRange (t0 + 1) (t0 + df.rows.length + 1)).map PyVal.int),
        seqUpdate t sq (t0 + df.rows.length) now) := by
    unfold insert_data_prepare
    rw [if_neg hlen0, hos, hop]
    dsimp only
    rw [← hdf1]
    unfold fill_df_pk_with_sequence
    rw [if_neg (by rw [hrl]; exact hlen0)]
    simp only [allocate_custom_sequence_block, hrow, hrl, ← ht0]
  refine ⟨_, hmain, ?_, ?_, ?_, ?_⟩
  · rw [df_set_column_cols_of_mem df1 pk _ hpkmem, hdf1]
    by_cases hc : df.cols.contains pk
    · rw [if_pos hc, if_pos hc]
    · rw [if_neg hc, if_neg hc, df_set_column_cols_of_not_mem df pk _
        (fun hmem => hc (List.elem_eq_true_of_mem hmem))]
  · rw [df_set_column_rows_length df1 pk _ (by rw [hids_len, hrl]), hrl]
  · rw [df_get_column_set_self df1 pk _ (by rw [hids_len, hrl]) hwf1]
    rw [intRange_block, List.map_map]
    rfl
  · intro c hc
    rw [df_get_column_set_other df1 pk c _ hc (by rw [hids_len, hrl]) hwf1, hdf1]
    by_cases hcc : df.cols.contains pk
    · rw [if_pos hcc]
    · rw [if_neg hcc]
      exact df_get_column_set_other df pk c _ hc (by simp) hwf

/-- **C7**: when both `pk_col` and `sequence_name` are supplied, the insert
path requests exactly `len(batch)` ids from the allocator for that sequence
(the stored threshold advances by exactly `len(batch)`) and assigns them
positionally: entry `i` of the primary-key column (row order) receives the
`i`-th allocated id `t0 + 1 + i`; a 2-row batch at starting threshold 0
receives ids 1 and 2 in original row order. -/
theorem insert_fills_pk_positionally (df : DF) (pk sq : String) (t : SeqTable)
    (now : Int) (row : SeqRow) (t0 : Int)
    (hpk : pk ≠ "") (hsq : sq ≠ "") (hne : df.rows ≠ [])
    (hwf : ∀ r ∈ df.rows, r.length = df.cols.length)
    (hrow : seqLookup t sq = some row) (ht0 : row.last_threshold.getD 0 = t0) :
    ∃ df2 t2,
      insert_data_prepare df (some pk) (some sq) t now = Except.ok (df2, t2) ∧
      df_get_column df2 pk = (List.range df.rows.length).map
        (fun (i : Nat) => PyVal.int (t0 + 1 + (i : Int))) ∧
      (df_get_column df2 pk).length = df.rows.length ∧
      (∀ i, i < df.rows.length →
        (df_get_column df2 pk).getD i PyVal.null = PyVal.int (t0 + 1 + (i : Int))) ∧
      seqLookup t2 sq = some ⟨some (t0 + df.rows.length), now⟩ := by
  subst ht0
  rcases insert_prepare_spec df pk sq t now row hpk hsq hne hwf hrow with
    ⟨df2, hmain, hcols, hrows, hgetpk, hother⟩
  refine ⟨df2, _, hmain, hgetpk, ?_, ?_, ?_⟩
  · rw [hgetpk, List.length_map, List.length_range]
  · intro i hi
    rw [hgetpk, List.getD_eq_getElem?_getD, List.getElem?_map, List.getElem?_range hi]
    rfl
  · exact seqLookup_seqUpdate_self t sq _ now (by rw [hrow]; rfl)

/-- The 2-row DataFrame of the C7 scenario. -/
def dfAB : DF := ⟨["NAME"], [[PyVal.str "Alice"], [PyVal.str "Bob"]]⟩

/-- A sequence table whose `ORDERS` entity has a null threshold (read as 0). -/
def tORD : SeqTable := ⟨[("ORDERS", ⟨Option.none, 0⟩)]⟩

/-- Witness for C7: 2-row batch, `pk_col=ID`, `sequence_name=ORDERS`,
starting threshold 0. -/
theorem insert_fills_pk_positionally_witness :
    (("ID" : String) ≠ "") ∧ (dfAB.rows ≠ []) ∧
    ∃ df2 t2,
      insert_data_prepare dfAB (some "ID") (some "ORDERS") tORD 7 =
        Except.ok (df2, t2) ∧
      df_get_column df2 "ID" = (List.range dfAB.rows.length).map
        (fun (i : Nat) => PyVal.int ((0 : Int) + 1 + (i : Int))) ∧
      (df_get_column df2 "ID").length = dfAB.rows.length ∧
      (∀ i, i < dfAB.rows.length →
        (df_get_column df2 "ID").getD i PyVal.null =
          PyVal.int ((0 : Int) + 1 + (i : Int))) ∧
      seqLookup t2 "ORDERS" = some ⟨some ((0 : Int) + dfAB.rows.length), 7⟩ :=
  ⟨by decide, by decide,
   insert_fills_pk_positionally dfAB "ID" "ORDERS" tORD 7 ⟨Option.none, 0⟩ 0
     (by decide) (by decide) (by decide) (by decide) rfl rfl⟩

/-- **C10**: `insert_data` with both `pk_col` and `sequence_name` mutates the
caller's DataFrame: a missing `pk_col` is appended as the last column, its
values are overwritten with the allocated sequence ids (visible to the
caller), every other column is left unchanged; `update_data` never mutates
its input DataFrame. -/
theorem insert_mutates_df_update_does_not (df : DF) (pk sq tbl : String)
    (t : SeqTable) (now : Int) (row : SeqRow)
    (hpk : pk ≠ "") (hsq : sq ≠ "") (hne : df.rows ≠ [])
    (hwf : ∀ r ∈ df.rows, r.length = df.cols.length)
    (hrow : seqLookup t sq = some row) :
    (∃ df2 t2,
      insert_data_prepare df (some pk) (some sq) t now = Except.ok (df2, t2) ∧
      (df.cols.contains pk = false → df2.cols = df.cols ++ [pk]) ∧
      (df.cols.contains pk = true → df2.cols = df.cols) ∧
      df_get_column df2 pk = (List.range df.rows.length).map
        (fun (i : Nat) => PyVal.int (row.last_threshold.getD 0 + 1 + (i : Int))) ∧
      (∀ c, c ≠ pk → df_get_column df2 c = df_get_column df c)) ∧
    (∀ (pk_cols : List String) (df3 : DF) (out : String × List (List PyVal)),
      update_data tbl df pk_cols = Except.ok (df3, out) → df3 = df) := by
  constructor
  · rcases insert_prepare_spec df pk sq t now row hpk hsq hne hwf hrow with
      ⟨df2, hmain, hcols, hrows, hgetpk, hother⟩
    refine ⟨df2, _, hmain, ?_, ?_, hgetpk, hother⟩
    · intro hcf
      rw [hcols, if_neg (by rw [hcf]; exact Bool.false_ne_true)]
    · intro hct
      rw [hcols, if_pos hct]
  · intro pk_cols df3 out h
    unfold update_data at h
    by_cases h1 : df.rows.length = 0
    · rw [if_pos h1] at h
      cases h
      rfl
    · rw [if_neg h1] at h
      by_cases h2 : pk_cols = []
      · rw [if_pos h2] at h
        cases h
      · rw [if_neg h2] at h
        by_cases h3 : pk_cols.filter (fun c => !df.cols.contains c) ≠ []
        · rw [if_pos h3] at h
          cases h
        · rw [if_neg h3] at h
          cases h
          rfl

/-- Witness for C10 at the concrete 2-row DataFrame (pk column absent, so it
is appended; the NAME column is untouched; update leaves the frame alone). -/
theorem insert_mutates_df_update_does_not_witness :
    (("ID" : String) ≠ "") ∧ (dfAB.rows ≠ []) ∧
    ((∃ df2 t2,
      insert_data_prepare dfAB (some "ID") (some "ORDERS") tORD 7 =
        Except.ok (df2, t2) ∧
      (dfAB.cols.contains "ID" = false → df2.cols = dfAB.cols ++ ["ID"]) ∧
      (dfAB.cols.contains "ID" = true → df2.cols = dfAB.cols) ∧
      df_get_column df2 "ID" = (List.range dfAB.rows.length).map
        (fun (i : Nat) => PyVal.int ((SeqRow.mk Option.none 0).last_threshold.getD 0 + 1 + (i : Int))) ∧
      (∀ c, c ≠ "ID" → df_get_column df2 c = df_get_column dfAB c)) ∧
    (∀ (pk_cols : List String) (df3 : DF) (out : String × List (List PyVal)),
      update_data "T1" dfAB pk_cols = Except.ok (df3, out) → df3 = dfAB)) :=
  ⟨by decide, by decide,
   insert_mutates_df_update_does_not dfAB "ID" "ORDERS" "T1" tORD 7
     ⟨Option.none, 0⟩ (by decide) (by decide) (by decide) (by decide) rfl⟩
